import Mathlib

/-!
Shallow embedding of the lucent HTTP file server (Rust) and proofs about it.

Rust strings are modelled as Lean `String`s; every string the embedded code
paths touch is ASCII, where Rust's byte indexing and Lean's character
indexing agree.  Rust `usize` values are modelled as `Nat`, with wrap-around
spelled out as arithmetic modulo `2 ^ 64` at the spots where the source can
underflow or overflow (release-build semantics; debug builds panic there,
which is noted in comments).  Byte buffers (`Vec<u8>`) are `List Nat`.
`HashMap` is modelled as an association list with insert-replaces-existing
semantics; iteration order is irrelevant to everything proved here.
-/

namespace Lucent

/-! ### Constants (src/consts.rs) -/

def MAX_URI_LENGTH : Nat := 8192

/-- Modelled from the spec: the constant `READ_CHUNK_SIZE` used by
`util::with_chunks` lives in a version of `consts.rs` that is not in the
source tree (the file present predates the rename).  The spec fixes the
file-read chunk at 4096 bytes. -/
def READ_CHUNK_SIZE : Nat := 4096

/-- One more than the largest `usize` value; `usize` wrap-around is modelled
as arithmetic modulo this. -/
def USIZE_MOD : Nat := 2 ^ 64

/-- Optional whitespace characters (`OPTIONAL_WHITESPACE` in src/consts.rs). -/
def OPTIONAL_WHITESPACE : List Char := [' ', '\t']

/-! ### String helpers

Kernel-reducible equivalents of the Rust `str` operations the embedded code
uses (Lean's built-in `String` functions are position-based and do not
reduce under `decide`). -/

/-- The UTF-8 encoded size of one character. -/
def charUtf8Size (c : Char) : Nat :=
  if c.toNat < 0x80 then 1
  else if c.toNat < 0x800 then 2
  else if c.toNat < 0x10000 then 3
  else 4

/-- Rust `str::len`: the length in UTF-8 bytes. -/
def byteLen (s : String) : Nat :=
  s.toList.foldl (fun n c => n + charUtf8Size c) 0

/-- Rust `char::to_ascii_lowercase`. -/
def asciiLower (c : Char) : Char :=
  if 'A' ≤ c && c ≤ 'Z' then Char.ofNat (c.toNat + 32) else c

/-- Rust `str::to_ascii_lowercase`. -/
def lowerStr (s : String) : String := ⟨s.toList.map asciiLower⟩

/-- Rust `str::split(sep)` (always at least one piece; empty pieces kept). -/
def splitCharAux (sep : Char) : List Char → List Char → List (List Char)
  | [], acc => [acc.reverse]
  | c :: rest, acc =>
      if c = sep then acc.reverse :: splitCharAux sep rest []
      else splitCharAux sep rest (c :: acc)

def splitChar (sep : Char) (s : String) : List String :=
  (splitCharAux sep s.toList []).map List.asString

def startsWithChars : List Char → List Char → Bool
  | _, [] => true
  | [], _ :: _ => false
  | c :: s, p :: ps => c = p && startsWithChars s ps

/-- Rust `str::starts_with(pre)`. -/
def strStartsWith (s pre : String) : Bool := startsWithChars s.toList pre.toList

/-- Rust `str::ends_with(c)` for a single character. -/
def lastCharIs (c : Char) (s : String) : Bool := s.toList.getLast? = some c

/-- Rust `&s[n..]` where the first `n` characters are ASCII (drop by
characters). -/
def strDrop (n : Nat) (s : String) : String := ⟨s.toList.drop n⟩

/-! ### Header store (src/http/headers.rs) -/

/-- Visible characters as defined in RFC 7230 (`util::is_visible_char`). -/
def is_visible_char (c : Char) : Bool := '!' ≤ c && c ≤ '~'

/-- The characters of `TOKEN_CHARS` in src/http/headers.rs. -/
def TOKEN_CHARS : String := "!#$%&'*+-.^_`|~"

def is_token_char (c : Char) : Bool := TOKEN_CHARS.toList.any (· = c) || c.isAlphanum

def is_token_string (s : String) : Bool := s.toList.all is_token_char

def is_valid_header_value (s : String) : Bool :=
  s.toList.all fun c => is_visible_char c || OPTIONAL_WHITESPACE.any (· = c)

/-- `MULTI_VALUE_HEADER_NAMES` in src/http/headers.rs. -/
def MULTI_VALUE_HEADER_NAMES : List String :=
  ["accept", "accept-charset", "accept-encoding", "accept-language",
   "cache-control", "te", "transfer-encoding", "upgrade", "via"]

/-- `HashMap::insert`: replace the value under an existing key, else add the
binding. -/
def insertEntry : List (String × List String) → String → List String →
    List (String × List String)
  | [], k, v => [(k, v)]
  | (k', v') :: rest, k, v =>
      if k' = k then (k, v) :: rest else (k', v') :: insertEntry rest k v

/-- `HashMap::get`. -/
def lookupEntry (es : List (String × List String)) (k : String) :
    Option (List String) :=
  (es.find? fun e => e.fst = k).map (·.snd)

/-- `HashMap::remove` (the mutated map). -/
def removeEntry : List (String × List String) → String →
    List (String × List String)
  | [], _ => []
  | (k', v') :: rest, k => if k' = k then rest else (k', v') :: removeEntry rest k

/-- The header store: a map from field-name to the list of field values.
Models `Headers` in src/http/headers.rs (a `HashMap<String, Vec<String>>`). -/
structure Headers where
  entries : List (String × List String)
deriving DecidableEq, Repr

/-- `Headers::normalize_header_name`: Rust `to_ascii_lowercase`, which (like
Lean's `String.toLower`) lowercases exactly the ASCII uppercase letters. -/
def normalize_header_name (name : String) : String := lowerStr name

def Headers.get (h : Headers) (name : String) : Option (List String) :=
  lookupEntry h.entries (normalize_header_name name)

def Headers.containsName (h : Headers) (name : String) : Bool :=
  (h.get name).isSome

/-- `Headers::set_one`; returns the success flag and the (possibly unchanged)
store. -/
def Headers.set_one (h : Headers) (name value : String) : Bool × Headers :=
  if !is_token_string name || !is_valid_header_value value then (false, h)
  else (true, ⟨insertEntry h.entries (normalize_header_name name) [value]⟩)

/-- `Headers::set`; note the source calls `HashMap::insert`, which replaces
any existing binding for the (lowercased) name. -/
def Headers.set (h : Headers) (name : String) (values : List String) :
    Bool × Headers :=
  if !is_token_string name || !values.all is_valid_header_value then (false, h)
  else (true, ⟨insertEntry h.entries (normalize_header_name name) values⟩)

/-- `Headers::remove`; unlike `get`/`set`/`set_one`, the source passes `name`
to `HashMap::remove` verbatim, without `normalize_header_name`. -/
def Headers.remove (h : Headers) (name : String) : Headers :=
  ⟨removeEntry h.entries name⟩

def Headers.is_multi_value (name : String) : Bool :=
  MULTI_VALUE_HEADER_NAMES.any (· = normalize_header_name name)

/-! ### Header-line parsing (src/http/parser.rs, `MessageParser::parse_header`) -/

/-- Rust `str::trim_matches(OPTIONAL_WHITESPACE)`: strip spaces and tabs from
both ends. -/
def trimOws (s : String) : String :=
  ⟨(s.toList.dropWhile (fun c => OPTIONAL_WHITESPACE.any (· = c))).reverse.dropWhile
      (fun c => OPTIONAL_WHITESPACE.any (· = c)) |>.reverse⟩

/-- Rust `str::strip_suffix(CRLF).unwrap_or(..)`. -/
def stripCrlfSuffix (s : String) : String :=
  if s.toList.reverse.take 2 = ['\n', '\r'] then ⟨s.toList.dropLast.dropLast⟩ else s

/-- `str::splitn(2, ':')` restricted to lines that contain a colon (the caller
`parse_headers` only invokes `parse_header` on such lines); `none` models the
`InvalidHeader` rejection of a colon-free line. -/
def splitFirstColon (s : String) : Option (String × String) :=
  match s.toList.findIdx? (· = ':') with
  | some i => some (⟨s.toList.take i⟩, ⟨s.toList.drop (i + 1)⟩)
  | none => none

/-- `MessageParser::parse_header` for one raw header line `buf` (the sending
of a `100 Continue` on a valid `Expect` header is I/O and not modelled; the
`InvalidExpectHeader` rejection is).  `none` models `Err(..)`. -/
def parse_header (headers : Headers) (buf : String) : Option Headers :=
  match splitFirstColon buf with
  | none => none
  | some parts =>
    let header_name := lowerStr parts.1
    let header_value := trimOws (stripCrlfSuffix parts.2)
    let header_values :=
      if Headers.is_multi_value parts.1 then
        (splitChar ',' header_value).map trimOws
      else [header_value]
    match headers.set parts.1 header_values with
    | (false, _) => none
    | (true, headers') =>
      if header_name = "expect" && header_value ≠ "100-continue" then none
      else some headers'

/-- The header-section loop of `MessageParser::parse_headers`, restricted to
plain header lines (no blank-line terminator, length bound, or `Host` check,
which do not affect the stored values). -/
def parse_header_lines (h : Headers) (lines : List String) : Option Headers :=
  lines.foldlM parse_header h

/-! ### Conditional checker (src/server/middleware/cond_checker.rs)

The time parser `util::parse_time_imf` is chrono-based library code that is
not part of the embedded core; it is passed in as a parameter `pt` (timestamps
are modelled as `Int`).  No property proved below depends on its behaviour. -/

/-- `CondInfo` in src/server/middleware/cond_checker.rs. -/
structure CondInfo where
  etag : Option String
  last_modified : Option Int
deriving DecidableEq, Repr

/-- `ConditionalChecker::check_unchanged_headers`.  Note the Rust
`if let .. else if let ..` shape: when `If-Match` is present but the resource
has no ETag, the `If-Unmodified-Since` branch is not consulted and the
function falls through to `true`. -/
def check_unchanged_headers (pt : String → Option Int) (info : CondInfo)
    (h : Headers) : Bool :=
  match h.get "if-match" with
  | some matching =>
    match info.etag with
    | some etag => matching.headD "" = "*" || matching.any (· = etag)
    | none => true
  | none =>
    match h.get "if-unmodified-since" with
    | some since =>
      match info.last_modified with
      | some last_modified =>
        match pt (since.headD "") with
        | some since' => last_modified ≤ since'
        | none => true
      | none => true
    | none => true

/-- `ConditionalChecker::check_changed_headers`; same fall-through shape. -/
def check_changed_headers (pt : String → Option Int) (info : CondInfo)
    (h : Headers) : Bool :=
  match h.get "if-none-match" with
  | some not_matching =>
    match info.etag with
    | some etag => not_matching.headD "" ≠ "*" && not_matching.all (· ≠ etag)
    | none => true
  | none =>
    match h.get "if-modified-since" with
    | some since =>
      match info.last_modified with
      | some last_modified =>
        match pt (since.headD "") with
        | some since' => since' < last_modified
        | none => true
      | none => true
    | none => true

/-- `ConditionalChecker::check_range_header`. -/
def check_range_header (pt : String → Option Int) (info : CondInfo)
    (h : Headers) : Bool :=
  if h.containsName "range" then
    match h.get "if-range" with
    | some etag_or_date =>
      let eod := etag_or_date.headD ""
      match pt eod with
      | some since =>
        match info.last_modified with
        | some last_modified => last_modified = since
        | none => true
      | none =>
        if strStartsWith eod "\"" && lastCharIs '\"' eod then
          match info.etag with
          | some etag => eod = etag
          | none => true
        else true
    | none => true
  else true

/-- The two error outcomes of `ConditionalChecker::check`
(`MiddlewareOutput::Status(PreconditionFailed, false)` and
`MiddlewareOutput::Status(NotModified, false)`). -/
inductive CondOutput
  | preconditionFailed
  | notModified
deriving DecidableEq, Repr

/-- The result of `ConditionalChecker::check`: `failed o` is `Err(o)`;
`proceed h` is `Ok(())` together with the (possibly mutated) header store —
the source removes the `Range` header in place when `check_range_header`
fails. -/
inductive CondResult
  | failed (output : CondOutput)
  | proceed (headers : Headers)
deriving DecidableEq, Repr

/-- `ConditionalChecker::check`. -/
def ConditionalChecker.check (pt : String → Option Int) (info : CondInfo)
    (h : Headers) : CondResult :=
  if !check_unchanged_headers pt info h then .failed .preconditionFailed
  else if !check_changed_headers pt info h then .failed .notModified
  else if !check_range_header pt info h then .proceed (h.remove "range")
  else .proceed h

/-- The claim's reading of an entity-tag header value "listing" a tag: some
stored value, read as a comma-separated list with optional whitespace, has
the tag as an element.  (This is what the source would compute if
`If-None-Match` were one of the multi-value headers that are comma-split at
parse time — it is not.) -/
def lists_tag (values : List String) (tag : String) : Bool :=
  values.any fun v => ((splitChar ',' v).map trimOws).any (· = tag)

/-! ### Connection loop (src/server/file_server.rs) -/

inductive HttpVersion
  | http09
  | http10
  | http11
deriving DecidableEq, Repr

/-- The request fields `FileServer::handle_conn` and
`FileServer::client_intends_to_close` consult (method, URI, body and the
chunked flag are never read there and are omitted). -/
structure Request where
  http_version : HttpVersion
  headers : Headers
deriving DecidableEq, Repr

/-- The virtual-server config fields consulted by host selection. -/
structure Config where
  hosts : List String
deriving DecidableEq, Repr

/-- `FileServer::client_intends_to_close`, including the source's redundant
second disjunct: the test is `conn_options[0] != "keep-alive" ||
conn_options[0] == "close"`, which is true whenever the first Connection
value differs from `keep-alive`. -/
def client_intends_to_close (request : Request) : Bool :=
  match request.headers.get "connection" with
  | some conn_options =>
      conn_options.headD "" ≠ "keep-alive" || conn_options.headD "" = "close"
  | none => request.http_version ≠ HttpVersion.http11

/-- The hostname `handle_conn` reads:
`&request.headers.get(consts::H_HOST).unwrap()[0]` (parsing guarantees the
header is present). -/
def hostOf (request : Request) : String :=
  ((request.headers.get "host").getD []).headD ""

/-- Virtual-server selection in `handle_conn`:
`configs.iter().find(|c| c.0.hosts.iter().any(|h| h == "*" || h == hostname))`. -/
def findVirtualServer (configs : List Config) (hostname : String) :
    Option Config :=
  configs.find? fun c => c.hosts.any fun h => h = "*" || h = hostname

/-- `OutputProcessor::process` on the `MiddlewareOutput::Response(_, close)`
produced by `ResponseGenerator` for a served request: it sends the response
and returns `send(..).is_err() || close`. -/
def OutputProcessor.process (send_failed close : Bool) : Bool :=
  send_failed || close

/-- The value of `handle_conn`'s loop condition (the `match` whose `true`
terminates the keep-alive loop) for one successfully parsed request.
`send_failed`/`close` describe the `OutputProcessor.process` call on the
generated output.  Mirrors the source: a matched virtual server yields
`client_intends_to_close(request) || process(..)` — the `||` short-circuits,
so when the client intends to close, `process` (and hence the send) never
runs; an unmatched `Host` yields `false`, which makes the `while !cond` loop
repeat. -/
def request_loop_terminates (configs : List Config) (request : Request)
    (send_failed close : Bool) : Bool :=
  match findVirtualServer configs (hostOf request) with
  | some _ => client_intends_to_close request
      || OutputProcessor.process send_failed close
  | none => false

/-- Whether `handle_conn` sends the generated response at all: `process` is
reached only when a virtual server matched and short-circuiting did not skip
it. -/
def response_sent (configs : List Config) (request : Request) : Bool :=
  (findVirtualServer configs (hostOf request)).isSome
    && !client_intends_to_close request

/-- The close condition that claim C4 asserts: a `Connection: close` first
value, or a version below HTTP/1.1 without an explicit `keep-alive`. -/
def c4_spec_close (request : Request) : Bool :=
  (match request.headers.get "connection" with
   | some vs => vs.headD "" = "close"
   | none => false)
  || (request.http_version ≠ HttpVersion.http11
      && !(match request.headers.get "connection" with
           | some vs => vs.headD "" = "keep-alive"
           | none => false))

/-- The close condition the code actually implements: a `Connection` header
whose first value is anything other than `keep-alive`, or no `Connection`
header on a request whose version is below HTTP/1.1. -/
def c4_amended_close (request : Request) : Bool :=
  match request.headers.get "connection" with
  | some vs => vs.headD "" ≠ "keep-alive"
  | none => request.http_version ≠ HttpVersion.http11

/-! ### URI parser (src/http/uri.rs)

The parser's two failure kinds (`UriTooLong`, `InvalidUri`) are collapsed
into `none`: every claim about the parser only distinguishes acceptance from
rejection. -/

inductive Method
  | get
  | head
  | post
  | put
  | delete
  | connect
  | options
  | trace
deriving DecidableEq, Repr

structure Authority where
  user_info : Option String
  host : String
  port : Option Nat
deriving DecidableEq, Repr

/-- `Query`; the source's `ParamMap` is a `HashMap`, modelled as the
association list produced by inserting the pairs in order (later duplicate
keys overwrite). -/
inductive Query
  | ParamMap (params : List (String × String))
  | SearchString (terms : List String)
  | none
deriving DecidableEq, Repr

structure AbsolutePath where
  path : List String
  query : Query
deriving DecidableEq, Repr

inductive Uri
  | OriginForm (path : AbsolutePath)
  | AbsoluteForm (scheme : String) (authority : Authority) (path : AbsolutePath)
  | AuthorityForm (authority : Authority)
  | AsteriskForm
deriving DecidableEq, Repr

def is_host_char (c : Char) : Bool :=
  "-._~%!$&'()*+,;=".toList.any (· = c) || c.isAlphanum

def is_user_info_char (c : Char) : Bool := is_host_char c || c = ':'

def is_path_char (c : Char) : Bool := is_user_info_char c || c = '@'

def is_query_char (c : Char) : Bool := is_path_char c || c = '/' || c = '?'

def hexDigit? (c : Char) : Option Nat :=
  let n := c.toNat
  if 48 ≤ n && n ≤ 57 then some (n - 48)
  else if 97 ≤ n && n ≤ 102 then some (n - 87)
  else if 65 ≤ n && n ≤ 70 then some (n - 55)
  else Option.none

/-- `u8::from_str_radix(s, 16)` for a two-character slice: two hex digits, or
(a quirk of Rust's integer parsing) a `+` sign followed by one hex digit. -/
def hexByte? (c1 c2 : Char) : Option Nat :=
  if c1 = '+' then hexDigit? c2
  else do pure ((← hexDigit? c1) * 16 + (← hexDigit? c2))

/-- `decode_percent` in src/http/uri.rs: each `%` must be followed by two
characters that parse as a hex byte; the decoded byte is pushed `as char`. -/
def decode_percent_list : List Char → Option (List Char)
  | [] => some []
  | '%' :: c1 :: c2 :: rest => do
      let b ← hexByte? c1 c2
      let decoded ← decode_percent_list rest
      pure (Char.ofNat b :: decoded)
  | '%' :: _ :: [] => Option.none
  | '%' :: [] => Option.none
  | c :: rest => (decode_percent_list rest).map (c :: ·)

def decode_percent (s : String) : Option String :=
  (decode_percent_list s.toList).map List.asString

/-- Split at the first occurrence of `sep`, excluding it from the second
part; `none` if absent (Rust `str::find` + slicing). -/
def splitFirst (sep : Char) (s : String) : Option (String × String) :=
  match s.toList.findIdx? (· = sep) with
  | some i => some (⟨s.toList.take i⟩, ⟨s.toList.drop (i + 1)⟩)
  | Option.none => Option.none

/-- Rust `usize::from_str`: optional leading `+`, at least one digit, all
digits, value fitting in 64 bits. -/
def parse_usize (s : String) : Option Nat :=
  let digits := if strStartsWith s "+" then (strDrop 1 s).toList else s.toList
  if digits = [] || !digits.all Char.isDigit then Option.none
  else
    let v := digits.foldl (fun acc c => 10 * acc + (c.toNat - 48)) 0
    if v < USIZE_MOD then some v else Option.none

/-- Rust `u16::from_str` (used for the port). -/
def parse_u16 (s : String) : Option Nat :=
  match parse_usize s with
  | some v => if v < 65536 then some v else Option.none
  | Option.none => Option.none

/-- `parse_query` in src/http/uri.rs. -/
def parse_query (raw_query : String) : Option Query :=
  if raw_query = "" then some Query.none
  else if raw_query.toList.contains '=' then
    let params := (splitChar '&' raw_query).map fun param =>
      match splitFirst '=' param with
      | some (k, v) => [k, v]
      | Option.none => [param]
    if !params.all (fun p => p.length = 2
        && (p.headD "").toList.all is_query_char
        && (p.getD 1 "").toList.all is_query_char) then Option.none
    else do
      let pairs ← params.mapM fun p => do
        pure ((← decode_percent (p.headD "")), (← decode_percent (p.getD 1 "")))
      pure (Query.ParamMap (pairs.foldl
        (fun m kv => if m.any (·.1 = kv.1)
          then m.map (fun e => if e.1 = kv.1 then kv else e)
          else m ++ [kv]) []))
  else do
    let terms ← (splitChar '+' raw_query).mapM decode_percent
    pure (Query.SearchString terms)

/-- `UriParser::parse_absolute_path`.  The segment checks (non-empty, path
characters only, not `..`) run on the RAW segments; percent-decoding happens
afterwards. -/
def parse_absolute_path (accept_empty : Bool) (raw : String) :
    Option AbsolutePath :=
  if !accept_empty && (raw = "" || !strStartsWith raw "/") then Option.none
  else
    let pq := match splitFirst '?' raw with
      | some (p, q) => (p, q)
      | Option.none => (raw, "")
    let raw_path := if lastCharIs '/' pq.1 then ⟨pq.1.toList.dropLast⟩ else pq.1
    let path := splitChar '/' raw_path
    if path.headD "" ≠ "" then Option.none
    else
      let path := path.tail
      if path.any (fun part =>
          part = "" || !part.toList.all is_path_char || part = "..") then
        Option.none
      else do
        let path ← path.mapM decode_percent
        let query ← parse_query pq.2
        pure ⟨path, query⟩

/-- `UriParser::parse_pre_authority`: the scheme and the rest of the raw
string. -/
def parse_pre_authority (raw : String) : Option (String × String) :=
  if strStartsWith raw "http://" && byteLen raw > 7 then
    some ("http", strDrop 7 raw)
  else if strStartsWith raw "https://" && byteLen raw > 8 then
    some ("https", strDrop 8 raw)
  else Option.none

/-- `UriParser::parse_authority`: the authority and the rest of the raw
string.  Mirrors the source's advance `self.raw = &self.raw[authority_part.len()..]`,
where `authority_part` has already been shortened past any `user@` prefix —
so with user info present the un-consumed part still starts at the `@`. -/
def parse_authority (accept_user : Bool) (raw : String) :
    Option (Authority × String) :=
  let authority_part0 : String := match splitFirst '/' raw with
    | some (before, _) => before
    | Option.none => raw
  match splitFirst '@' authority_part0 with
  | some (info, after) => do
      if !accept_user || !info.toList.all is_user_info_char then Option.none
      else do
        let user_info ← decode_percent info
        let authority_part := after
        let a ← parse_host_port authority_part
        pure ({ a with user_info := some user_info },
              strDrop authority_part.toList.length raw)
  | Option.none => do
      let a ← parse_host_port authority_part0
      pure (a, strDrop authority_part0.toList.length raw)
where
  /-- The host/port half of `parse_authority`: split on `:`, at most two
  parts; host characters are checked before percent-decoding. -/
  parse_host_port (authority_part : String) : Option Authority :=
    let host_and_port := splitChar ':' authority_part
    if host_and_port = [] || host_and_port.length > 2 then Option.none
    else do
      let host0 := host_and_port.headD ""
      if !host0.toList.all is_host_char then Option.none
      else do
        let host ← decode_percent host0
        if host_and_port.length = 2 then
          match parse_u16 (host_and_port.getD 1 "") with
          | some port => pure ⟨Option.none, host, some port⟩
          | Option.none => Option.none
        else pure ⟨Option.none, host, Option.none⟩

/-- `UriParser::parse` (via `Uri::from`): the length bound, the four forms,
and the method restrictions.  `raw.utf8ByteSize` is Rust's `raw.len()`. -/
def Uri.fromRaw (method : Method) (raw : String) : Option Uri :=
  if byteLen raw > MAX_URI_LENGTH then Option.none
  else if raw = "*" && method = Method.options then some Uri.AsteriskForm
  else if method = Method.connect then
    match parse_authority false raw with
    | some (authority, _) => some (Uri.AuthorityForm authority)
    | Option.none => Option.none
  else if strStartsWith raw "/" then
    match parse_absolute_path false raw with
    | some path => some (Uri.OriginForm path)
    | Option.none => Option.none
  else do
    let (scheme, rest) ← parse_pre_authority raw
    let (authority, rest') ← parse_authority true rest
    let path ← parse_absolute_path true rest'
    pure (Uri.AbsoluteForm scheme authority path)

/-! ### Range parser (src/server/middleware/range_parser.rs) -/

/-- `util::Range` (half-open byte range). -/
structure ByteRange where
  low : Nat
  high : Nat
deriving DecidableEq, Repr

/-- `RangeParser::parse_range` for one comma-piece of the header value.
In the suffix branch the source computes `high - n` on `usize`; the model
spells out the release-build wrap-around (`(body_len + 2^64 - n) % 2^64`);
a debug build panics on the same underflow.  The only validity check the
source performs before keeping a range is `range.high <= self.body_len`. -/
def parse_range (body_len : Nat) (range : String) : Option ByteRange :=
  let parsed : Option ByteRange :=
    if strStartsWith range "-" && byteLen range > 1 then do
      let n ← parse_usize (strDrop 1 range)
      let high := body_len
      let low := (body_len + USIZE_MOD - n) % USIZE_MOD
      pure ⟨low, high⟩
    else
      let parts := splitChar '-' range
      if parts.length ≠ 2 then Option.none
      else do
        let low ← parse_usize (parts.headD "")
        let high ← if parts.getD 1 "" = "" then pure body_len
          else (parse_usize (parts.getD 1 "")).map (· + 1)
        pure ⟨low, high⟩
  match parsed with
  | some r => if r.high ≤ body_len then some r else Option.none
  | Option.none => Option.none

/-- The list of ranges `RangeParser::get_body` keeps for a `Range` header
value that passed the `bytes` unit check:
`range[6..].split(',').filter_map(|range| self.parse_range(range))`. -/
def kept_ranges (body_len : Nat) (range_value : String) : List ByteRange :=
  (splitChar ',' (strDrop 6 range_value)).filterMap (parse_range body_len)

/-! ### Streaming file chunks (src/util.rs, `with_chunks`) -/

/-- `read_exact` on an in-memory stream: take exactly `n` bytes or fail. -/
def read_exact (stream : List Nat) (n : Nat) :
    Option (List Nat × List Nat) :=
  if n ≤ stream.length then some (stream.take n, stream.drop n) else Option.none

/-- The loop body of `util::with_chunks`, iterating over the chunk indices;
the final chunk's length is `len % READ_CHUNK_SIZE`, every other chunk's is
`READ_CHUNK_SIZE`. -/
def with_chunks_go (len chunk_count : Nat) :
    List Nat → List Nat → Option (List (List Nat))
  | _, [] => some []
  | stream, n :: ns =>
      let chunk_len :=
        if n = chunk_count - 1 then len % READ_CHUNK_SIZE else READ_CHUNK_SIZE
      match read_exact stream chunk_len with
      | some (chunk, rest) =>
          (with_chunks_go len chunk_count rest ns).map (chunk :: ·)
      | Option.none => Option.none

/-- `util::with_chunks len reader op`: the sequence of chunks passed to `op`,
or `none` when a `read_exact` fails.  `chunk_count` is
`(len - 1) / READ_CHUNK_SIZE + 1`, with the `usize` subtraction's
release-build wrap-around spelled out (a debug build panics when
`len = 0`). -/
def with_chunks (len : Nat) (stream : List Nat) : Option (List (List Nat)) :=
  let chunk_count := ((len + USIZE_MOD - 1) % USIZE_MOD) / READ_CHUNK_SIZE + 1
  with_chunks_go len chunk_count stream (List.range chunk_count)

/-! ### CGI response synthesis (src/server/middleware/cgi_runner.rs) -/

/-- `windows(2).position(|a| a[0] == LF && a[1] == LF)`. -/
def findLFLFpos : List Nat → Option Nat
  | b0 :: b1 :: rest =>
      if b0 = 10 && b1 = 10 then some 0
      else (findLFLFpos (b1 :: rest)).map (· + 1)
  | _ => Option.none

/-- The per-byte rewrite inside `CgiRunner::replace_crlf_nl`'s `flat_map`:
every LF byte becomes CR LF, with no look-behind for an existing CR. -/
def lfToCrlf (b : Nat) : List Nat := if b = 10 then [13, 10] else [b]

/-- `CgiRunner::replace_crlf_nl`.  `body_index` is two past the first LF-LF
pair, and `res.len() - 2 + 2 = res.len()` when no pair exists (the source
only ever calls this with `res.length ≥ 1`; for `res.length < 2` the
eagerly-evaluated `unwrap_or(res.len() - 2)` underflows — `Nat` truncation is
used here, and no theorem below touches that corner). -/
def replace_crlf_nl (res : List Nat) : List Nat :=
  let body_index := (match findLFLFpos res with
    | some i => i
    | Option.none => res.length - 2) + 2
  ((res.take body_index).map lfToCrlf).flatten ++ res.drop body_index

/-- The status line `CgiRunner::get_response` prepends:
`format!("{} {} \r\n", HttpVersion::Http11, Status::Ok)` — `Status` displays
as its numeric code, so the line is `HTTP/1.1 200 ` followed by CRLF. -/
def cgiStatusLine : List Nat := "HTTP/1.1 200 \r\n".toList.map Char.toNat

/-- The bytes `CgiRunner::get_response` hands to the response parser for a
non-NPH script with non-empty stdout. -/
def cgi_synthesized (stdout : List Nat) : List Nat :=
  cgiStatusLine ++ replace_crlf_nl stdout

/-! ### ETag generation (src/server/middleware/response_gen.rs) -/

/-- 64-bit rotate left (operands stay below `2 ^ 64`). -/
def rotl64 (x r : Nat) : Nat :=
  ((x <<< r) % USIZE_MOD) ||| (x >>> (64 - r))

/-- One SipHash round, all arithmetic modulo `2 ^ 64`. -/
def sipround (v : Nat × Nat × Nat × Nat) : Nat × Nat × Nat × Nat :=
  let v0 := (v.1 + v.2.1) % USIZE_MOD
  let v1 := rotl64 v.2.1 13
  let v1 := v1 ^^^ v0
  let v0 := rotl64 v0 32
  let v2 := (v.2.2.1 + v.2.2.2) % USIZE_MOD
  let v3 := rotl64 v.2.2.2 16
  let v3 := v3 ^^^ v2
  let v0 := (v0 + v3) % USIZE_MOD
  let v3 := rotl64 v3 21
  let v3 := v3 ^^^ v0
  let v2 := (v2 + v1) % USIZE_MOD
  let v1 := rotl64 v1 17
  let v1 := v1 ^^^ v2
  let v2 := rotl64 v2 32
  (v0, v1, v2, v3)

/-- A little-endian word from up to eight bytes. -/
def leWord (bs : List Nat) : Nat := bs.foldr (fun b acc => b + 256 * acc) 0

/-- One SipHash-1-3 compression step (c = 1). -/
def sipCompress (v : Nat × Nat × Nat × Nat) (m : Nat) : Nat × Nat × Nat × Nat :=
  let v := (v.1, v.2.1, v.2.2.1, v.2.2.2 ^^^ m)
  let v := sipround v
  (v.1 ^^^ m, v.2.1, v.2.2.1, v.2.2.2)

/-- Consume full eight-byte blocks; return the state and the tail. -/
def sipBlocks (v : Nat × Nat × Nat × Nat) :
    List Nat → (Nat × Nat × Nat × Nat) × List Nat
  | b0 :: b1 :: b2 :: b3 :: b4 :: b5 :: b6 :: b7 :: rest =>
      sipBlocks (sipCompress v (leWord [b0, b1, b2, b3, b4, b5, b6, b7])) rest
  | tail => (v, tail)

/-- SipHash-1-3 with both keys zero — the hash `DefaultHasher` computes over
the byte stream written so far (`std::collections::hash_map::DefaultHasher`
is `SipHasher13::new_with_keys(0, 0)`). -/
def siphash13 (msg : List Nat) : Nat :=
  let v : Nat × Nat × Nat × Nat :=
    (0x736f6d6570736575, 0x646f72616e646f6d, 0x6c7967656e657261,
     0x7465646279746573)
  let st := sipBlocks v msg
  let b := ((msg.length % 256) <<< 56) ||| leWord st.2
  let v := sipCompress st.1 b
  let v := (v.1, v.2.1, v.2.2.1 ^^^ 0xff, v.2.2.2)
  let v := sipround (sipround (sipround v))
  v.1 ^^^ v.2.1 ^^^ v.2.2.1 ^^^ v.2.2.2

/-- `DefaultHasher`, modelled by the byte stream written so far: `finish`
(non-destructively) hashes everything written, and further writes extend the
stream. -/
structure DefaultHasher where
  written : List Nat
deriving DecidableEq, Repr

def DefaultHasher.new : DefaultHasher := ⟨[]⟩

def DefaultHasher.write (h : DefaultHasher) (bs : List Nat) : DefaultHasher :=
  ⟨h.written ++ bs⟩

def DefaultHasher.finish (h : DefaultHasher) : Nat := siphash13 h.written

/-- The UTF-8 bytes of a string (the embedded strings are ASCII, where this
is the character codes). -/
def strBytes (s : String) : List Nat := s.toList.map Char.toNat

/-- `Hash for str`: write the bytes, then a `0xff` terminator byte. -/
def DefaultHasher.hashStr (h : DefaultHasher) (s : String) : DefaultHasher :=
  h.write (strBytes s ++ [0xff])

/-- Rust `format!("{:x}", n)` for a `u64`: lowercase hex, no padding. -/
def hexU64 (n : Nat) : String := ⟨Nat.toDigits 16 n⟩

/-- The reverse of a string (`time.chars().rev().collect::<String>()`). -/
def strReverse (s : String) : String := ⟨s.toList.reverse⟩

/-- `ResponseGenerator::generate_etag`, as a function of the formatted
IMF-fixdate last-modified string `time` (the source formats the `DateTime`
with `util::format_time_imf` first; the claims are about everything after
that).  The second `finish` is called on the SAME hasher after feeding the
reversed string into it — the hasher state is not reset. -/
def generate_etag (time : String) : String :=
  let hasher := DefaultHasher.new
  let hasher := hasher.hashStr time
  let etag := "\"" ++ hexU64 hasher.finish
  let hasher := hasher.hashStr (strReverse time)
  etag ++ hexU64 hasher.finish ++ "\""

/-- The ETag that claim C7 describes: the hex hash of the time string
concatenated with the hex hash of the REVERSED STRING ALONE (a fresh
hasher), wrapped in quotes. -/
def c7_spec_etag (time : String) : String :=
  "\"" ++ hexU64 (DefaultHasher.new.hashStr time).finish
    ++ hexU64 (DefaultHasher.new.hashStr (strReverse time)).finish ++ "\""

/-! ### Helper lemmas -/

theorem lookupEntry_insertEntry (es : List (String × List String))
    (k : String) (v : List String) :
    lookupEntry (insertEntry es k v) k = some v := by
  induction es with
  | nil => simp [insertEntry, lookupEntry]
  | cons e rest ih =>
    by_cases hk : e.1 = k
    · simp [insertEntry, hk, lookupEntry]
    · simpa [insertEntry, hk, lookupEntry, List.find?_cons] using ih

theorem removeEntry_of_no_key (es : List (String × List String)) (name : String)
    (h : ∀ e ∈ es, e.1 ≠ name) : removeEntry es name = es := by
  induction es with
  | nil => rfl
  | cons e rest ih =>
    have h1 : e.1 ≠ name := h e (by simp)
    simp only [removeEntry, if_neg h1]
    rw [ih fun e' he' => h e' (by simp [he'])]

/-! ### Claim theorems -/

/-- Claim C1 (code bug): the URI parser accepts the origin-form request
target `/%2e%2e` — its raw segment `%2e%2e` is non-empty, consists of path
characters, and differs from `..`, so every check in
`UriParser::parse_absolute_path` passes — and percent-decoding, applied only
AFTER those checks, then turns the segment into `..`.  The resulting parsed
path has a segment equal to `..` after decoding, violating the invariant the
claim states (the same check-before-decode ordering also admits segments
with disallowed characters, e.g. `/%20` decodes to a space). -/
theorem C1_dotdot_segment_after_decode :
    Uri.fromRaw Method.get "/%2e%2e"
      = some (Uri.OriginForm ⟨[".."], Query.none⟩)
    ∧ Uri.fromRaw Method.get "/%20"
      = some (Uri.OriginForm ⟨[" "], Query.none⟩)
    ∧ is_path_char ' ' = false := by decide

/-- Claim C2 (code bug): `util::with_chunks` computes the final chunk's
length as `len % READ_CHUNK_SIZE`, which is `0` when `len` is a positive
multiple of `READ_CHUNK_SIZE`; for a stream of length exactly
`READ_CHUNK_SIZE` the loop runs one iteration that reads and writes zero
bytes, so the body is never written (first conjunct, for every stream).  A
length that is not a multiple is handled correctly (second conjunct), which
is exactly the claim's "final chunk shorter than the chunk size" case. -/
theorem C2_with_chunks_drops_exact_multiple :
    (∀ stream : List Nat, with_chunks READ_CHUNK_SIZE stream = some [[]])
    ∧ with_chunks 5 [1, 2, 3, 4, 5] = some [[1, 2, 3, 4, 5]] := by
  constructor
  · intro stream
    simp [with_chunks, with_chunks_go, read_exact, READ_CHUNK_SIZE, USIZE_MOD,
      List.range_succ]
  · decide

/-- Claim C3 counterexample: a CGI script whose output `a: b CRLF CRLF Z`
uses CRLF line endings and contains no bare LF at all.  Under the claim the
synthesized bytes would be the status line followed by the output unchanged
(there is no bare LF to replace, and a CRLF already present in the head is
not to be altered); `CgiRunner::replace_crlf_nl` instead rewrites every LF —
the head's CRLFs become CR CR LF. -/
theorem C3_counterexample :
    cgi_synthesized ("a: b\r\n\r\nZ".toList.map Char.toNat)
      ≠ cgiStatusLine ++ "a: b\r\n\r\nZ".toList.map Char.toNat := by decide

/-- Claim C3 (amended): the rewrite boundary is two bytes past the first
LF-LF byte pair — bytes from that boundary on are unchanged and every LF
before it (including one already preceded by CR, which therefore becomes
CR CR LF) is replaced by CR LF; when no LF-LF pair exists (as with a
CRLF-terminated head) the whole output is rewritten. -/
theorem C3_amended (res : List Nat) :
    (∀ i, findLFLFpos res = some i →
      cgi_synthesized res
        = cgiStatusLine ++ ((res.take (i + 2)).map lfToCrlf).flatten
          ++ res.drop (i + 2))
    ∧ (findLFLFpos res = Option.none →
      cgi_synthesized res = cgiStatusLine ++ (res.map lfToCrlf).flatten) := by
  constructor
  · intro i hi
    simp [cgi_synthesized, replace_crlf_nl, hi]
  · intro hn
    have hle : res.length ≤ res.length - 2 + 2 := by omega
    simp [cgi_synthesized, replace_crlf_nl, hn, List.take_of_length_le hle,
      List.drop_eq_nil_of_le hle]

/-- Witness for C3_amended: a bare-LF head `x: y LF LF B` has its first
LF-LF pair at position 4; the boundary is 6 and the body byte `B` is
untouched. -/
theorem C3_amended_witness :
    cgi_synthesized ("x: y\n\nB".toList.map Char.toNat)
      = cgiStatusLine
        ++ ((("x: y\n\nB".toList.map Char.toNat).take 6).map lfToCrlf).flatten
        ++ ("x: y\n\nB".toList.map Char.toNat).drop 6 :=
  (C3_amended _).1 4 (by decide)

/-- Claim C4 counterexample: an HTTP/1.1 request whose `Connection` header
holds `upgrade` (neither `close` nor `keep-alive`), on a matching virtual
server with a successfully generated response (`send_failed = false`,
`close = false`).  The claim says the loop repeats; the code's
`client_intends_to_close` test `conn[0] != "keep-alive" || conn[0] == "close"`
is true for any value other than `keep-alive`, so the loop terminates (and,
by short-circuiting, the response is not even sent). -/
theorem C4_counterexample :
    request_loop_terminates [⟨["*"]⟩]
        ⟨HttpVersion.http11, ⟨[("host", ["a"]), ("connection", ["upgrade"])]⟩⟩
        false false = true
    ∧ c4_spec_close
        ⟨HttpVersion.http11, ⟨[("host", ["a"]), ("connection", ["upgrade"])]⟩⟩
        = false
    ∧ response_sent [⟨["*"]⟩]
        ⟨HttpVersion.http11, ⟨[("host", ["a"]), ("connection", ["upgrade"])]⟩⟩
        = false := by decide

/-- Claim C4 (amended): for a request whose `Host` matches a virtual server
and whose generated output is a normal response (close flag false) that
would send successfully, the loop closes iff the request carried a
`Connection` header whose first value is not `keep-alive`, or no `Connection`
header with a version below HTTP/1.1; when it closes for that reason the
response is not sent at all (the `||` short-circuits past the send), and
otherwise the response is sent and the loop repeats. -/
theorem C4_amended (configs : List Config) (request : Request)
    (hmatch : (findVirtualServer configs (hostOf request)).isSome = true) :
    request_loop_terminates configs request false false
      = c4_amended_close request
    ∧ response_sent configs request = !c4_amended_close request := by
  have hcl : client_intends_to_close request = c4_amended_close request := by
    cases hc : request.headers.get "connection" with
    | none => simp [client_intends_to_close, c4_amended_close, hc]
    | some vs =>
      simp only [client_intends_to_close, c4_amended_close, hc]
      generalize vs.headD "" = a
      by_cases ha : a = "keep-alive" <;> simp [ha]
  match hfind : findVirtualServer configs (hostOf request) with
  | none => rw [hfind] at hmatch; simp at hmatch
  | some cfg =>
    constructor
    · simp [request_loop_terminates, hfind, OutputProcessor.process, hcl]
    · simp [response_sent, hfind, hcl]

/-- Witness for C4_amended: `Connection: close` on HTTP/1.1 — the loop
closes and the response is skipped. -/
theorem C4_amended_witness :
    request_loop_terminates [⟨["*"]⟩]
        ⟨HttpVersion.http11, ⟨[("host", ["a"]), ("connection", ["close"])]⟩⟩
        false false
      = c4_amended_close
        ⟨HttpVersion.http11, ⟨[("host", ["a"]), ("connection", ["close"])]⟩⟩
    ∧ response_sent [⟨["*"]⟩]
        ⟨HttpVersion.http11, ⟨[("host", ["a"]), ("connection", ["close"])]⟩⟩
      = !c4_amended_close
        ⟨HttpVersion.http11, ⟨[("host", ["a"]), ("connection", ["close"])]⟩⟩ :=
  C4_amended _ _ (by decide)

/-- Claim C5 counterexample: a request whose `Host` (`b`) matches no
configured virtual server (`hosts = ["a"]`).  The claim says the connection
loop closes; the unmatched arm of `handle_conn` yields `false`, so the
`while !cond` loop REPEATS (whatever the output processor would have
returned), parsing the next request — no response is sent, but the
connection stays open. -/
theorem C5_counterexample :
    findVirtualServer [⟨["a"]⟩]
        (hostOf ⟨HttpVersion.http11, ⟨[("host", ["b"])]⟩⟩) = Option.none
    ∧ request_loop_terminates [⟨["a"]⟩]
        ⟨HttpVersion.http11, ⟨[("host", ["b"])]⟩⟩ false false = false
    ∧ request_loop_terminates [⟨["a"]⟩]
        ⟨HttpVersion.http11, ⟨[("host", ["b"])]⟩⟩ true true = false := by decide

/-- Claim C5 (amended): when no configured virtual server's `hosts` list
matches the request's `Host` (with `*` as wildcard), the loop sends no
response for that request and repeats, parsing the next request on the same
connection (it does not close). -/
theorem C5_amended (configs : List Config) (request : Request)
    (send_failed close : Bool)
    (hnone : findVirtualServer configs (hostOf request) = Option.none) :
    request_loop_terminates configs request send_failed close = false
    ∧ response_sent configs request = false := by
  constructor
  · simp [request_loop_terminates, hnone]
  · simp [response_sent, hnone]

/-- Witness for C5_amended at a concrete unmatched request. -/
theorem C5_amended_witness :
    request_loop_terminates [⟨["a"]⟩]
        ⟨HttpVersion.http11, ⟨[("host", ["b"])]⟩⟩ false true = false
    ∧ response_sent [⟨["a"]⟩] ⟨HttpVersion.http11, ⟨[("host", ["b"])]⟩⟩
      = false :=
  C5_amended _ _ _ _ (by decide)

/-- Claim C6 (code bug): `RangeParser::parse_range` validates a parsed range
only with `range.high <= self.body_len`; it never checks `low < high`.  On a
body of length 10 the header piece `5-2` is kept as the invalid range
`⟨5, 3⟩` with `low ≥ high` (the multipart path then slices `body[5..3]` and
panics), and the suffix piece `-11` underflows `len - n` (debug builds
panic; in release the wrap-around produces `low = 2^64 - 1`, and the range
is still kept since only `high ≤ len` is checked). -/
theorem C6_invalid_ranges_kept :
    kept_ranges 10 "bytes=5-2" = [⟨5, 3⟩]
    ∧ ¬ (5 : Nat) < 3
    ∧ parse_range 10 "-11" = some ⟨USIZE_MOD - 1, 10⟩ := by decide

/-- Claim C7 counterexample: at the IMF-fixdate string for the Unix epoch,
the ETag `ResponseGenerator::generate_etag` produces differs from the ETag
the claim describes (whose second hex component would be the hash of the
reversed string alone): the source reuses the same `DefaultHasher` for the
second `finish`, so its state still contains the original string. -/
theorem C7_counterexample :
    generate_etag "Thu, 01 Jan 1970 00:00:00 GMT"
      ≠ c7_spec_etag "Thu, 01 Jan 1970 00:00:00 GMT" := by decide

/-- Claim C7 (amended): the ETag is the quote-wrapped concatenation of two
lowercase-hex SipHash-1-3 values — the first of the time string, and the
second of the CONTINUED byte stream in which the reversed string is fed to
the hasher that already hashed the original (so it is a hash of
`time ++ 0xff ++ reverse(time) ++ 0xff`, not of the reverse alone); it is
still a deterministic function of the last-modified string only. -/
theorem C7_amended (time : String) :
    generate_etag time
      = "\"" ++ hexU64 (siphash13 (strBytes time ++ [0xff]))
        ++ hexU64 (siphash13 ((strBytes time ++ [0xff])
            ++ (strBytes (strReverse time) ++ [0xff]))) ++ "\"" := rfl

/-- Claim C8 counterexample: a store holding `["1"]` under `a`; per the
claim, `set "A" ["2"]` should append, leaving `["1", "2"]` — the source's
`HashMap::insert` replaces, leaving `["2"]`. -/
theorem C8_counterexample :
    (Headers.set ⟨[("a", ["1"])]⟩ "A" ["2"]).2.get "A" = some ["2"]
    ∧ some ["2"] ≠ some (["1"] ++ ["2"]) := by decide

/-- Claim C8 (amended): for a token name and valid values, `set` succeeds
and REPLACES the values stored under the lowercased name with exactly the
given values; consequently, when two header lines with the same field-name
are parsed in succession, the store holds only the second line's values
(final conjunct, at the two lines `X-T: one` and `X-T: two`). -/
theorem C8_amended (h : Headers) (name : String) (values : List String)
    (hname : is_token_string name = true)
    (hvals : values.all is_valid_header_value = true) :
    (h.set name values).1 = true
    ∧ (h.set name values).2.get name = some values
    ∧ parse_header_lines ⟨[]⟩ ["X-T: one\r\n", "X-T: two\r\n"]
      = some ⟨[("x-t", ["two"])]⟩ := by
  refine ⟨?_, ?_, by decide⟩
  · simp [Headers.set, hname, hvals]
  · simp [Headers.set, hname, hvals, Headers.get, lookupEntry_insertEntry]

/-- Witness for C8_amended: replacing `["1"]` with `["2"]` under `a`. -/
theorem C8_amended_witness :
    (Headers.set ⟨[("a", ["1"])]⟩ "A" ["2"]).1 = true
    ∧ (Headers.set ⟨[("a", ["1"])]⟩ "A" ["2"]).2.get "A" = some ["2"]
    ∧ parse_header_lines ⟨[]⟩ ["X-T: one\r\n", "X-T: two\r\n"]
      = some ⟨[("x-t", ["two"])]⟩ :=
  C8_amended ⟨[("a", ["1"])]⟩ "A" ["2"] (by decide) (by decide)

/-- Claim C9 counterexample: the resource's ETag is `"e1"` and the request
carries `If-None-Match: "e1", "e2"` (stored, unsplit, as the single value
`"e1", "e2"` — `If-None-Match` is not one of the multi-value headers, as the
`parse_header` conjunct shows).  The header lists the ETag, the unchanged
guards pass, yet the checker PROCEEDS: the source compares each stored value
as a whole against the ETag, so a comma-separated list never matches. -/
theorem C9_counterexample :
    parse_header ⟨[]⟩ "If-None-Match: \"e1\", \"e2\"\r\n"
      = some ⟨[("if-none-match", ["\"e1\", \"e2\""])]⟩
    ∧ lists_tag ["\"e1\", \"e2\""] "\"e1\"" = true
    ∧ check_unchanged_headers (fun _ => Option.none)
        ⟨some "\"e1\"", Option.none⟩
        ⟨[("if-none-match", ["\"e1\", \"e2\""])]⟩ = true
    ∧ ConditionalChecker.check (fun _ => Option.none)
        ⟨some "\"e1\"", Option.none⟩
        ⟨[("if-none-match", ["\"e1\", \"e2\""])]⟩
      ≠ CondResult.failed CondOutput.notModified := by decide

/-- Claim C9 (amended): with a known ETag, an `If-None-Match` header present
and the unchanged guards passing, the checker returns `NotModified` iff the
header's FIRST stored value is `*` or some stored value equals the ETag
exactly (since `If-None-Match` is not comma-split at parse time, a value
listing several comma-separated entity-tags never matches). -/
theorem C9_amended (pt : String → Option Int) (info : CondInfo) (h : Headers)
    (etag : String) (vs : List String)
    (hetag : info.etag = some etag)
    (hinm : h.get "if-none-match" = some vs)
    (hpass : check_unchanged_headers pt info h = true) :
    ConditionalChecker.check pt info h
      = CondResult.failed CondOutput.notModified
    ↔ (vs.headD "" = "*" ∨ etag ∈ vs) := by
  have hch : check_changed_headers pt info h
      = (decide (vs.headD "" ≠ "*") && vs.all (· ≠ etag)) := by
    simp only [check_changed_headers, hinm, hetag]
  by_cases hstar : vs.head?.getD "" = "*"
  · have hcc : check_changed_headers pt info h = false := by
      rw [hch]; simp [hstar]
    simp [ConditionalChecker.check, hpass, hcc, hstar]
  · by_cases hmem : etag ∈ vs
    · have hallf : vs.all (fun x => decide (x ≠ etag)) = false := by
        cases hall : vs.all fun x => decide (x ≠ etag)
        · rfl
        · rw [List.all_eq_true] at hall
          have := hall etag hmem
          simp at this
      have hcc : check_changed_headers pt info h = false := by
        rw [hch, hallf, Bool.and_false]
      simp [ConditionalChecker.check, hpass, hcc, hmem]
    · have hallt : vs.all (fun x => decide (x ≠ etag)) = true := by
        rw [List.all_eq_true]
        intro x hx
        simp only [decide_eq_true_eq]
        intro he
        exact hmem (he ▸ hx)
      have hcc : check_changed_headers pt info h = true := by
        rw [hch, hallt]; simp [hstar]
      by_cases hr : check_range_header pt info h = true <;>
        simp [ConditionalChecker.check, hpass, hcc, hstar, hmem, hr]

/-- Witness for C9_amended: a single exactly-matching ETag yields
`NotModified`. -/
theorem C9_amended_witness :
    (ConditionalChecker.check (fun _ => Option.none)
        ⟨some "\"x\"", Option.none⟩ ⟨[("if-none-match", ["\"x\""])]⟩
      = CondResult.failed CondOutput.notModified
    ↔ (["\"x\""].headD "" = "*" ∨ "\"x\"" ∈ ["\"x\""])) :=
  C9_amended (fun _ => Option.none) ⟨some "\"x\"", Option.none⟩
    ⟨[("if-none-match", ["\"x\""])]⟩ "\"x\"" ["\"x\""]
    (by decide) (by decide) (by decide)

/-- Claim C10 (confirmed): `Headers::remove` passes the name to
`HashMap::remove` verbatim while `get`/`contains`/`set_one`/`set` lowercase
it first; since every stored key is lowercase (contains no uppercase ASCII
letter), `remove` with a name containing an uppercase ASCII letter finds no
matching key and leaves the store unchanged. -/
theorem C10_remove_uppercase_noop (h : Headers) (name : String)
    (hkeys : h.entries.all
      (fun e => e.1.toList.all fun c => !('A' ≤ c && c ≤ 'Z')) = true)
    (hname : name.toList.any (fun c => 'A' ≤ c && c ≤ 'Z') = true) :
    h.remove name = h := by
  have hne : ∀ e ∈ h.entries, e.1 ≠ name := by
    intro e he heq
    rw [List.all_eq_true] at hkeys
    have hk := hkeys e he
    rw [heq, List.all_eq_true] at hk
    rw [List.any_eq_true] at hname
    obtain ⟨c, hc, hcu⟩ := hname
    have := hk c hc
    rw [hcu] at this
    simp at this
  cases h with
  | mk entries =>
    simp only [Headers.remove, Headers.mk.injEq]
    exact removeEntry_of_no_key entries name hne

/-- Witness for C10_remove_uppercase_noop at a store produced by parsing. -/
theorem C10_witness :
    Headers.remove ⟨[("content-length", ["0"])]⟩ "Content-Length"
      = ⟨[("content-length", ["0"])]⟩ :=
  C10_remove_uppercase_noop ⟨[("content-length", ["0"])]⟩ "Content-Length"
    (by decide) (by decide)

end Lucent
